import Mathlib

set_option maxRecDepth 100000

/-!
Verification of the POW-1.1 repository: a proof-of-work search over SHA-256
(`pow_mining` in `pow_mining.py`, `find_pow_hash` in `rsa_signature.py`) and an
RSA-PSS commitment signer/verifier (`sign_message` / `verify_signature` in
`rsa_signature.py`).

The PoW search and the hex-digest pipeline are embedded directly from the
source: SHA-256 is implemented from FIPS 180-4 exactly as `hashlib.sha256`
computes it (checked below against the standard test vectors), strings are
encoded to UTF-8 bytes as Python's `str.encode()` does, and the unbounded
`while True` loops become fuel-indexed loops returning `Option` (`none` means
the fuel ran out before a winning counter was found; the source loop keeps
going). Wall-clock reads (`time.time()`) become an explicit clock argument
`clock : Nat → Rat` giving the value of the k-th clock read of a run.

The RSA key-pair, PSS signing and PSS verification primitives live in the
external `cryptography` library, not in this repository, so they are modelled
from the spec (see the doc comments on `generate_rsa_keypair`, `sign_message`
and `publicKeyVerify`); the `try/except` wrapper `verify_signature` is embedded
from the source.
-/

namespace POW

/-- Truncate to a 32-bit word. -/
def w32 (x : Nat) : Nat := x % 4294967296

/-- Right rotation of a 32-bit word by `n` places (0 < n < 32). -/
def rotr (n x : Nat) : Nat := (x / 2 ^ n) + (x % 2 ^ n) * 2 ^ (32 - n)

/-- SHA-256 working state: eight 32-bit words. -/
structure Hash8 where
  a : Nat
  b : Nat
  c : Nat
  d : Nat
  e : Nat
  f : Nat
  g : Nat
  h : Nat

/-- SHA-256 initial hash value (FIPS 180-4, decimal rendering of the eight
words 6a09e667, bb67ae85, 3c6ef372, a54ff53a, 510e527f, 9b05688c, 1f83d9ab,
5be0cd19). -/
def H0 : Hash8 :=
  ⟨1779033703, 3144134277, 1013904242, 2773480762,
   1359893119, 2600822924, 528734635, 1541459225⟩

/-- SHA-256 round constants (FIPS 180-4, in decimal: the fractional parts of
the cube roots of the first 64 primes, as 32-bit words). -/
def K : List Nat :=
  [1116352408, 1899447441, 3049323471, 3921009573, 961987163, 1508970993,
   2453635748, 2870763221, 3624381080, 310598401, 607225278, 1426881987,
   1925078388, 2162078206, 2614888103, 3248222580, 3835390401, 4022224774,
   264347078, 604807628, 770255983, 1249150122, 1555081692, 1996064986,
   2554220882, 2821834349, 2952996808, 3210313671, 3336571891, 3584528711,
   113926993, 338241895, 666307205, 773529912, 1294757372, 1396182291,
   1695183700, 1986661051, 2177026350, 2456956037, 2730485921, 2820302411,
   3259730800, 3345764771, 3516065817, 3600352804, 4094571909, 275423344,
   430227734, 506948616, 659060556, 883997877, 958139571, 1322822218,
   1537002063, 1747873779, 1955562222, 2024104815, 2227730452, 2361852424,
   2428436474, 2756734187, 3204031479, 3329325298]

/-- Big-endian 4-byte groups to 32-bit words. -/
def bytesToWords : List Nat → List Nat
  | b0 :: b1 :: b2 :: b3 :: rest => (((b0 * 256 + b1) * 256 + b2) * 256 + b3) :: bytesToWords rest
  | _ => []

/-- Extend a word list by `k` further scheduled words (FIPS 180-4 message
schedule). -/
def extendW (ws : List Nat) : Nat → List Nat
  | 0 => ws
  | k + 1 =>
    let i := ws.length
    let x15 := ws.getD (i - 15) 0
    let x2 := ws.getD (i - 2) 0
    let s0 := (rotr 7 x15) ^^^ (rotr 18 x15) ^^^ (x15 / 2 ^ 3)
    let s1 := (rotr 17 x2) ^^^ (rotr 19 x2) ^^^ (x2 / 2 ^ 10)
    extendW (ws ++ [w32 (ws.getD (i - 16) 0 + s0 + ws.getD (i - 7) 0 + s1)]) k

/-- One SHA-256 compression round, taking the round constant paired with the
scheduled word. -/
def round (s : Hash8) (kw : Nat × Nat) : Hash8 :=
  let S1 := (rotr 6 s.e) ^^^ (rotr 11 s.e) ^^^ (rotr 25 s.e)
  let ch := (s.e &&& s.f) ^^^ ((4294967295 - s.e) &&& s.g)
  let temp1 := w32 (s.h + S1 + ch + kw.1 + kw.2)
  let S0 := (rotr 2 s.a) ^^^ (rotr 13 s.a) ^^^ (rotr 22 s.a)
  let maj := (s.a &&& s.b) ^^^ (s.a &&& s.c) ^^^ (s.b &&& s.c)
  let temp2 := w32 (S0 + maj)
  ⟨w32 (temp1 + temp2), s.a, s.b, s.c, w32 (s.d + temp1), s.e, s.f, s.g⟩

/-- Process one 64-byte block of the padded message. -/
def processBlock (H : Hash8) (block : List Nat) : Hash8 :=
  let ws := extendW (bytesToWords block) 48
  let s := (K.zip ws).foldl round H
  ⟨w32 (H.a + s.a), w32 (H.b + s.b), w32 (H.c + s.c), w32 (H.d + s.d),
   w32 (H.e + s.e), w32 (H.f + s.f), w32 (H.g + s.g), w32 (H.h + s.h)⟩

/-- The eight big-endian bytes of the 64-bit message bit length. -/
def lenBytes (L : Nat) : List Nat :=
  let b := 8 * L
  [b / 2 ^ 56 % 256, b / 2 ^ 48 % 256, b / 2 ^ 40 % 256, b / 2 ^ 32 % 256,
   b / 2 ^ 24 % 256, b / 2 ^ 16 % 256, b / 2 ^ 8 % 256, b % 256]

/-- SHA-256 padding: append 0x80, zero bytes up to 56 mod 64, then the bit
length. -/
def padBytes (msg : List Nat) : List Nat :=
  let L := msg.length
  let r := (L + 1) % 64
  msg ++ [0x80] ++ List.replicate ((120 - r) % 64) 0 ++ lenBytes L

/-- Split into 64-byte chunks, recursing on a fuel that bounds the length. -/
def chunks64 : Nat → List Nat → List (List Nat)
  | 0, _ => []
  | _ + 1, [] => []
  | fuel + 1, l => l.take 64 :: chunks64 fuel (l.drop 64)

/-- The SHA-256 digest of a byte list, as eight 32-bit words. -/
def sha256words (msg : List Nat) : Hash8 :=
  let padded := padBytes msg
  (chunks64 padded.length padded).foldl processBlock H0

/-- The lowercase hex character of a nibble: the decimal digits for values
below ten, then the letters from `a` (codepoint 97 = 87 + 10) upward. -/
def hexDigit (n : Nat) : Char := Char.ofNat (if n < 10 then 48 + n else 87 + n)

/-- The sixteen lowercase hexadecimal digit characters, in value order. -/
def hexChars : List Char := (List.range 16).map hexDigit

/-- Eight lowercase hex characters of a 32-bit word, most significant first. -/
def wordHex (w : Nat) : List Char :=
  [hexDigit (w / 2 ^ 28 % 16), hexDigit (w / 2 ^ 24 % 16), hexDigit (w / 2 ^ 20 % 16),
   hexDigit (w / 2 ^ 16 % 16), hexDigit (w / 2 ^ 12 % 16), hexDigit (w / 2 ^ 8 % 16),
   hexDigit (w / 2 ^ 4 % 16), hexDigit (w % 16)]

/-- The lowercase-hex SHA-256 digest of a byte list, as Python
`hashlib.sha256(bytes).hexdigest()` renders it. -/
def sha256hex (msg : List Nat) : String :=
  let s := sha256words msg
  String.mk (wordHex s.a ++ wordHex s.b ++ wordHex s.c ++ wordHex s.d ++
             wordHex s.e ++ wordHex s.f ++ wordHex s.g ++ wordHex s.h)

/-- UTF-8 encoding of a Unicode scalar value, as byte values. -/
def utf8Bytes (c : Nat) : List Nat :=
  if c < 128 then [c]
  else if c < 2048 then [192 + c / 64, 128 + c % 64]
  else if c < 65536 then [224 + c / 4096, 128 + c / 64 % 64, 128 + c % 64]
  else [240 + c / 262144, 128 + c / 4096 % 64, 128 + c / 64 % 64, 128 + c % 64]

/-- UTF-8 byte values of a character list. -/
def charBytes : List Char → List Nat
  | [] => []
  | c :: cs => utf8Bytes c.toNat ++ charBytes cs

/-- UTF-8 byte values of a string, as Python's `s.encode()` produces them. -/
def strBytes (s : String) : List Nat := charBytes s.data

/-- Python `hashlib.sha256(s.encode()).hexdigest()`. -/
def hexdigest (s : String) : String := sha256hex (strBytes s)

/-- Python `s.startswith(pre)`. -/
def startswith (s pre : String) : Bool := List.isPrefixOf pre.data s.data

/-- Python `'0' * target_zeros`: the difficulty target string. A negative or
zero `target_zeros` yields the empty string, exactly as in Python. -/
def zeroTarget (target_zeros : Int) : String :=
  String.mk (List.replicate target_zeros.toNat '0')

/-- The `while True` body of `pow_mining` (pow_mining.py, lines 19-32),
indexed by fuel. `clock k` is the value of the k-th `time.time()` read of the
run: read 0 is `start_time`, read 1 is `end_time`. -/
def pow_mining_loop (clock : Nat → Rat) (nickname target : String) (start_time : Rat) :
    Nat → Nat → Option (Nat × String × String × Rat)
  | 0, _ => none
  | fuel + 1, nonce =>
    let hash_content := nickname ++ toString nonce
    let hash_value := hexdigest hash_content
    if startswith hash_value target then
      let end_time := clock 1
      let elapsed_time := end_time - start_time
      some (nonce, hash_content, hash_value, elapsed_time)
    else
      pow_mining_loop clock nickname target start_time fuel (nonce + 1)

/-- `pow_mining(nickname, target_zeros)` from pow_mining.py: starts the
counter at 0, reads the clock once before the loop, and searches with the
given fuel.  Returns `(nonce, hash_content, hash_value, elapsed_time)`. -/
def pow_mining (clock : Nat → Rat) (nickname : String) (target_zeros : Int)
    (fuel : Nat) : Option (Nat × String × String × Rat) :=
  let target := zeroTarget target_zeros
  let start_time := clock 0
  pow_mining_loop clock nickname target start_time fuel 0

/-- The `while True` body of `find_pow_hash` (rsa_signature.py, lines 38-45),
indexed by fuel. -/
def find_pow_hash_loop (nickname target : String) :
    Nat → Nat → Option (Nat × String × String)
  | 0, _ => none
  | fuel + 1, nonce =>
    let hash_content := nickname ++ toString nonce
    let hash_value := hexdigest hash_content
    if startswith hash_value target then
      some (nonce, hash_content, hash_value)
    else
      find_pow_hash_loop nickname target fuel (nonce + 1)

/-- `find_pow_hash(nickname, target_zeros)` from rsa_signature.py: the same
search without the timing instrumentation, returning
`(nonce, hash_content, hash_value)`. -/
def find_pow_hash (nickname : String) (target_zeros : Int) (fuel : Nat) :
    Option (Nat × String × String) :=
  find_pow_hash_loop nickname (zeroTarget target_zeros) fuel 0

/-- Modelled from the spec: RSA private-key material is opaque
(`rsa.generate_private_key` of the external `cryptography` library is not part
of this repository).  A key is identified by the session that generated it. -/
structure RSAPrivateKey where
  keyId : Nat
deriving DecidableEq

/-- Modelled from the spec: opaque RSA public-key material, identified by the
session that generated the pair it belongs to. -/
structure RSAPublicKey where
  keyId : Nat
deriving DecidableEq

/-- Modelled from the spec: a `Signature` is an opaque byte sequence bound to
exactly one `(message, privateKey)` pair at creation time; the PSS salt varies
between signing calls, so two signatures over the same message need not be
identical.  We record the binding: the signing key, the UTF-8 bytes of the
signed message, and the salt drawn for this call. -/
structure RSASignature where
  keyId : Nat
  signedBytes : List Nat
  salt : Nat
deriving DecidableEq

/-- `generate_rsa_keypair()` from rsa_signature.py, modelled from the spec:
each call yields a fresh, independent pair whose public half corresponds
exactly to its private half.  The `session` argument identifies the call. -/
def generate_rsa_keypair (session : Nat) : RSAPrivateKey × RSAPublicKey :=
  (⟨session⟩, ⟨session⟩)

/-- `sign_message(private_key, message)` from rsa_signature.py, modelled from
the spec: PSS-sign the UTF-8 encoding of `message` with the private key, using
the random salt drawn for this call. -/
def sign_message (private_key : RSAPrivateKey) (message : String) (salt : Nat) :
    RSASignature :=
  ⟨private_key.keyId, strBytes message, salt⟩

/-- Modelled from the spec: the external library's `public_key.verify`
succeeds (returns unit) iff the signature was produced by the private key
corresponding to `public_key` over exactly these message bytes; on any
mismatch it raises `InvalidSignature`. -/
def publicKeyVerify (public_key : RSAPublicKey) (signature : RSASignature)
    (msgBytes : List Nat) : Except String Unit :=
  if signature.keyId = public_key.keyId ∧ signature.signedBytes = msgBytes then
    Except.ok ()
  else
    Except.error "InvalidSignature"

/-- The `try/except` body of `verify_signature` (rsa_signature.py, lines
80-92), abstracted over the behaviour of the underlying library call: `.ok`
means the call returned, `.error` means it raised (Python's
`except Exception` catches every such error, of any payload type `ε`). -/
def verify_signature_with {ε : Type} (verifyCall : RSASignature → List Nat → Except ε Unit)
    (message : String) (signature : RSASignature) : Bool :=
  match verifyCall signature (strBytes message) with
  | Except.ok _ => true
  | Except.error _ => false

/-- `verify_signature(public_key, message, signature)` from rsa_signature.py:
the wrapper applied to the (spec-modelled) library verification call. -/
def verify_signature (public_key : RSAPublicKey) (message : String)
    (signature : RSASignature) : Bool :=
  verify_signature_with (publicKeyVerify public_key) message signature

end POW

namespace POW

/-! ## Sanity checks: the embedded SHA-256 against the FIPS 180-4 test vectors. -/

example : hexdigest "" =
    "e3b0c44298fc1c149afbf4c8996fb92427ae41e4649b934ca495991b7852b855" := by rfl

example : hexdigest "abc" =
    "ba7816bf8f01cfea414140de5dae2223b00361a396177a9cb410ff61f20015ad" := by rfl

example : hexdigest "abcdbcdecdefdefgefghfghighijhijkijkljklmklmnlmnomnopnopq" =
    "248d6a61d20638b8e5c026930c3e6039a33ce45964ff2167f6ecedd419db06c1" := by rfl

/-! ## Helper lemmas about the PoW search -/

/-- Every string starts with the empty target. -/
theorem startswith_empty (s : String) : startswith s "" = true := by
  unfold startswith
  have h : ("" : String).data = [] := rfl
  rw [h]
  cases s.data <;> rfl

/-- Python's `'0' * target_zeros` is empty for non-positive `target_zeros`. -/
theorem zeroTarget_of_nonpos (z : Int) (hz : z ≤ 0) : zeroTarget z = "" := by
  unfold zeroTarget
  rw [Int.toNat_of_nonpos hz]
  rfl

/-- Everything the search loop guarantees when it returns: the counter is at
least the starting counter, the committed input and digest are rebuilt from
the counter, the digest meets the target, the elapsed time is the second
clock read minus the start time, and no counter between the start and the
winner meets the target. -/
theorem pow_mining_loop_spec (clock : Nat → Rat) (seed tgt : String) (st : Rat) :
    ∀ (fuel n0 nonce : Nat) (content digest : String) (t : Rat),
      pow_mining_loop clock seed tgt st fuel n0 = some (nonce, content, digest, t) →
      n0 ≤ nonce ∧ content = seed ++ toString nonce ∧ digest = hexdigest content ∧
      startswith digest tgt = true ∧ t = clock 1 - st ∧
      ∀ c, n0 ≤ c → c < nonce → startswith (hexdigest (seed ++ toString c)) tgt = false := by
  intro fuel
  induction fuel with
  | zero =>
    intro n0 nonce content digest t h
    simp [pow_mining_loop] at h
  | succ fuel ih =>
    intro n0 nonce content digest t h
    rw [pow_mining_loop] at h
    cases hsw : startswith (hexdigest (seed ++ toString n0)) tgt with
    | true =>
      simp only [hsw, if_true, Option.some.injEq, Prod.mk.injEq] at h
      obtain ⟨h1, h2, h3, h4⟩ := h
      subst h1 h2 h3 h4
      refine ⟨Nat.le_refl _, rfl, rfl, hsw, rfl, ?_⟩
      intro c hc1 hc2
      omega
    | false =>
      simp only [hsw, Bool.false_eq_true, if_false] at h
      obtain ⟨ih1, ih2, ih3, ih4, ih5, ih6⟩ := ih (n0 + 1) nonce content digest t h
      refine ⟨by omega, ih2, ih3, ih4, ih5, ?_⟩
      intro c hc1 hc2
      rcases Nat.eq_or_lt_of_le hc1 with hc | hc
      · rw [hc] at hsw
        exact hsw
      · exact ih6 c hc hc2

/-- The timed loop of `pow_mining` and the untimed loop of `find_pow_hash`
are the same search: the timed one merely appends `clock 1 - start_time` to
the winning triple. -/
theorem pow_mining_loop_eq_find_loop (clock : Nat → Rat) (seed tgt : String) (st : Rat) :
    ∀ fuel n0, pow_mining_loop clock seed tgt st fuel n0 =
      (find_pow_hash_loop seed tgt fuel n0).map
        (fun r => (r.1, r.2.1, r.2.2, clock 1 - st)) := by
  intro fuel
  induction fuel with
  | zero =>
    intro n0
    rfl
  | succ fuel ih =>
    intro n0
    rw [pow_mining_loop, find_pow_hash_loop]
    cases hsw : startswith (hexdigest (seed ++ toString n0)) tgt with
    | true =>
      simp only [hsw, if_true]
      rfl
    | false => simp only [hsw, Bool.false_eq_true, if_false, ih]

/-- With the empty target the loop succeeds immediately at its starting
counter. -/
theorem pow_mining_loop_empty_target (clock : Nat → Rat) (seed : String) (st : Rat)
    (fuel n0 : Nat) :
    pow_mining_loop clock seed "" st (fuel + 1) n0 =
      some (n0, seed ++ toString n0, hexdigest (seed ++ toString n0), clock 1 - st) := by
  rw [pow_mining_loop]
  simp only [startswith_empty, if_true]

/-- Difficulty 0 makes `pow_mining` succeed on the very first attempt, with
counter 0 and committed input `seed ++ "0"`, for any fuel at all. -/
theorem pow_mining_difficulty_zero (clock : Nat → Rat) (seed : String) (fuel : Nat) :
    pow_mining clock seed 0 (fuel + 1) =
      some (0, seed ++ "0", hexdigest (seed ++ "0"), clock 1 - clock 0) := by
  unfold pow_mining
  have hz : zeroTarget 0 = "" := rfl
  rw [hz, pow_mining_loop_empty_target]
  rfl

/-! ## Helper lemmas about the digest rendering -/

/-- A word renders as exactly eight hex characters. -/
theorem wordHex_length (w : Nat) : (wordHex w).length = 8 := rfl

/-- Every SHA-256 hexdigest has exactly 64 characters. -/
theorem sha256hex_length (msg : List Nat) : (sha256hex msg).length = 64 := by
  unfold sha256hex
  show (List.length _) = 64
  simp only [List.length_append, wordHex_length]

/-- `hexDigit` of a nibble lands in the lowercase hex alphabet. -/
theorem hexDigit_mem_hexChars (n : Nat) (h : n < 16) : hexDigit n ∈ hexChars :=
  List.mem_map.mpr ⟨n, List.mem_range.mpr h, rfl⟩

/-- Every character of a rendered word is a lowercase hex character. -/
theorem mem_wordHex (w : Nat) (ch : Char) (h : ch ∈ wordHex w) : ch ∈ hexChars := by
  simp only [wordHex, List.mem_cons, List.not_mem_nil, or_false] at h
  rcases h with h | h | h | h | h | h | h | h <;>
    (rw [h]; exact hexDigit_mem_hexChars _ (Nat.mod_lt _ (by decide)))

/-- Every character of a SHA-256 hexdigest is a lowercase hex character. -/
theorem sha256hex_chars (msg : List Nat) (ch : Char) (h : ch ∈ (sha256hex msg).data) :
    ch ∈ hexChars := by
  unfold sha256hex at h
  simp only [List.mem_append] at h
  rcases h with ((((((h | h) | h) | h) | h) | h) | h) | h <;>
    exact mem_wordHex _ _ h

/-! ## Injectivity of the UTF-8 encoding

UTF-8 is a prefix code: the first byte of a character's encoding determines
its length, the byte ranges of the four lengths are disjoint, and within one
length the bytes determine the scalar value.  This is what makes the
spec-modelled signature binding over message bytes tamper-evident. -/

/-- No character encodes to the empty byte list. -/
theorem utf8Bytes_ne_nil (c : Nat) : utf8Bytes c ≠ [] := by
  unfold utf8Bytes
  split_ifs <;> simp

/-- Every Unicode scalar value is below 0x110000. -/
theorem char_toNat_lt (c : Char) : c.toNat < 1114112 := by
  rcases c.valid with h | ⟨h1, h2⟩
  · exact Nat.lt_trans h (by decide)
  · exact h2

/-- The UTF-8 encoding is cancellable at the head of a byte stream: equal
streams decode to the same first character and the same remainder. -/
theorem utf8Bytes_cancel (x y : Nat) (r s : List Nat)
    (h : utf8Bytes x ++ r = utf8Bytes y ++ s) : x = y ∧ r = s := by
  unfold utf8Bytes at h
  split_ifs at h <;>
    simp only [List.cons_append, List.nil_append, List.cons.injEq] at h <;>
    first
    | (obtain ⟨e1, e2, e3, e4, hr⟩ := h
       exact ⟨by omega, hr⟩)
    | (obtain ⟨e1, e2, e3, hr⟩ := h
       exact ⟨by omega, hr⟩)
    | (obtain ⟨e1, e2, hr⟩ := h
       exact ⟨by omega, hr⟩)
    | (obtain ⟨e1, hr⟩ := h
       exact ⟨by omega, hr⟩)
    | (obtain ⟨e1, hr⟩ := h
       exact absurd e1 (by omega))

/-- UTF-8 encoding of character lists is injective. -/
theorem charBytes_inj : ∀ (l1 l2 : List Char), charBytes l1 = charBytes l2 → l1 = l2
  | [], [] => fun _ => rfl
  | [], c :: cs => by
    intro h
    exfalso
    rw [charBytes, charBytes] at h
    rcases List.append_eq_nil.mp h.symm with ⟨h1, _⟩
    exact utf8Bytes_ne_nil c.toNat h1
  | c :: cs, [] => by
    intro h
    exfalso
    rw [charBytes, charBytes] at h
    rcases List.append_eq_nil.mp h with ⟨h1, _⟩
    exact utf8Bytes_ne_nil c.toNat h1
  | c :: cs, d :: ds => by
    intro h
    rw [charBytes, charBytes] at h
    obtain ⟨h1, h2⟩ := utf8Bytes_cancel c.toNat d.toNat _ _ h
    have hc : c = d := Char.eq_of_val_eq (UInt32.eq_of_val_eq (Fin.eq_of_val_eq h1))
    rw [hc, charBytes_inj cs ds h2]

/-- UTF-8 encoding of strings is injective: distinct messages have distinct
encoded byte sequences. -/
theorem strBytes_inj (s t : String) (h : strBytes s = strBytes t) : s = t := by
  have hd : s.data = t.data := charBytes_inj _ _ h
  cases s
  cases t
  exact congrArg String.mk hd

/-! ## The claims -/

/-- C1: whenever `pow_mining` returns, the digest starts with at least D zero
hex characters, and every counter strictly below the returned one fails the
predicate — the returned counter is minimal. -/
theorem pow_mining_digest_meets_target_and_minimal
    (seed : String) (D : Int) (_hD : 0 ≤ D) (clock : Nat → Rat) (fuel nonce : Nat)
    (content digest : String) (t : Rat)
    (h : pow_mining clock seed D fuel = some (nonce, content, digest, t)) :
    startswith digest (zeroTarget D) = true ∧
    ∀ c, c < nonce → startswith (hexdigest (seed ++ toString c)) (zeroTarget D) = false := by
  unfold pow_mining at h
  obtain ⟨-, -, -, h4, -, h6⟩ :=
    pow_mining_loop_spec clock seed (zeroTarget D) (clock 0) fuel 0 nonce content digest t h
  exact ⟨h4, fun c hc => h6 c (Nat.zero_le c) hc⟩

theorem pow_mining_digest_meets_target_and_minimal_witness :
    startswith (hexdigest "j1") (zeroTarget 1) = true ∧
    ∀ c, c < 1 → startswith (hexdigest ("j" ++ toString c)) (zeroTarget 1) = false :=
  pow_mining_digest_meets_target_and_minimal "j" 1 (by decide) (fun _ => 0) 2 1 "j1"
    (hexdigest "j1") ((fun _ : Nat => (0 : Rat)) 1 - (fun _ : Nat => (0 : Rat)) 0) (by rfl)

/-- C2: whenever `pow_mining` returns, the committed input is the seed
followed by the decimal text of the counter, and the digest is the SHA-256
hexdigest of that input: a 64-character lowercase-hex string. -/
theorem pow_mining_commitment_shape
    (seed : String) (D : Int) (clock : Nat → Rat) (fuel nonce : Nat)
    (content digest : String) (t : Rat)
    (h : pow_mining clock seed D fuel = some (nonce, content, digest, t)) :
    content = seed ++ toString nonce ∧ digest = hexdigest content ∧
    digest.length = 64 ∧ ∀ ch ∈ digest.data, ch ∈ hexChars := by
  unfold pow_mining at h
  obtain ⟨-, h2, h3, -, -, -⟩ :=
    pow_mining_loop_spec clock seed (zeroTarget D) (clock 0) fuel 0 nonce content digest t h
  refine ⟨h2, h3, ?_, ?_⟩
  · rw [h3]
    exact sha256hex_length _
  · intro ch hch
    rw [h3] at hch
    exact sha256hex_chars _ _ hch

theorem pow_mining_commitment_shape_witness :
    "a0" = "a" ++ toString 0 ∧ hexdigest "a0" = hexdigest "a0" ∧
    (hexdigest "a0").length = 64 ∧ ∀ ch ∈ (hexdigest "a0").data, ch ∈ hexChars :=
  pow_mining_commitment_shape "a" 0 (fun _ => 0) 1 0 "a0" (hexdigest "a0")
    ((fun _ : Nat => (0 : Rat)) 1 - (fun _ : Nat => (0 : Rat)) 0) (by rfl)

/-- C3: the search is deterministic in counter, committed input and digest —
two runs differing only in their clock agree on the first three components of
the result (only elapsed time may differ). -/
theorem pow_mining_deterministic_up_to_clock
    (c1 c2 : Nat → Rat) (seed : String) (D : Int) (fuel : Nat) :
    (pow_mining c1 seed D fuel).map (fun r => (r.1, r.2.1, r.2.2.1)) =
    (pow_mining c2 seed D fuel).map (fun r => (r.1, r.2.1, r.2.2.1)) := by
  unfold pow_mining
  rw [pow_mining_loop_eq_find_loop c1, pow_mining_loop_eq_find_loop c2]
  rcases find_pow_hash_loop seed (zeroTarget D) fuel 0 with - | ⟨a, b, c⟩ <;> rfl

/-- C9: `find_pow_hash` (rsa_signature.py) and `pow_mining` (pow_mining.py)
are the same search: the former returns exactly the first three components of
the latter's result, for every input and every clock. -/
theorem find_pow_hash_refines_pow_mining
    (clock : Nat → Rat) (nickname : String) (target_zeros : Int) (fuel : Nat) :
    (pow_mining clock nickname target_zeros fuel).map (fun r => (r.1, r.2.1, r.2.2.1)) =
      find_pow_hash nickname target_zeros fuel := by
  unfold pow_mining find_pow_hash
  rw [pow_mining_loop_eq_find_loop]
  rcases find_pow_hash_loop nickname (zeroTarget target_zeros) fuel 0 with - | ⟨a, b, c⟩ <;> rfl

/-- C7: difficulty 0 succeeds on the very first attempt, returning counter 0
and committed input `seed ++ "0"`, for every seed and any positive fuel. -/
theorem pow_mining_difficulty_zero_first_attempt
    (seed : String) (clock : Nat → Rat) (fuel : Nat) :
    pow_mining clock seed 0 (fuel + 1) =
      some (0, seed ++ "0", hexdigest (seed ++ "0"), clock 1 - clock 0) :=
  pow_mining_difficulty_zero clock seed fuel

/-- C10: a non-positive difficulty gives the empty target `'0' * z = ""`, so
the search behaves exactly like difficulty 0 and succeeds at counter 0 on the
first attempt. -/
theorem pow_mining_nonpositive_difficulty
    (seed : String) (z : Int) (hz : z ≤ 0) (clock : Nat → Rat) (fuel : Nat) :
    pow_mining clock seed z fuel = pow_mining clock seed 0 fuel ∧
    pow_mining clock seed z (fuel + 1) =
      some (0, seed ++ "0", hexdigest (seed ++ "0"), clock 1 - clock 0) := by
  have hzt : zeroTarget z = zeroTarget 0 := by
    rw [zeroTarget_of_nonpos z hz]
    rfl
  have hall : ∀ f, pow_mining clock seed z f = pow_mining clock seed 0 f := by
    intro f
    unfold pow_mining
    rw [hzt]
  refine ⟨hall fuel, ?_⟩
  rw [hall (fuel + 1)]
  exact pow_mining_difficulty_zero clock seed fuel

theorem pow_mining_nonpositive_difficulty_witness :
    pow_mining (fun _ : Nat => (0 : Rat)) "a" (-2) 0 =
      pow_mining (fun _ : Nat => (0 : Rat)) "a" 0 0 ∧
    pow_mining (fun _ : Nat => (0 : Rat)) "a" (-2) (0 + 1) =
      some (0, "a" ++ "0", hexdigest ("a" ++ "0"),
        (fun _ : Nat => (0 : Rat)) 1 - (fun _ : Nat => (0 : Rat)) 0) :=
  pow_mining_nonpositive_difficulty "a" (-2) (by decide) (fun _ => 0) 0

/-- C4: the `try/except` wrapper of `verify_signature` always returns a
boolean, returns true exactly when the underlying library call returns, and
collapses every raised error — of any payload — to the uniform value false. -/
theorem verify_signature_total_uniform_false {ε : Type}
    (verifyCall : RSASignature → List Nat → Except ε Unit)
    (message : String) (signature : RSASignature) :
    (verify_signature_with verifyCall message signature = true ∨
      verify_signature_with verifyCall message signature = false) ∧
    (∀ u, verifyCall signature (strBytes message) = Except.ok u →
      verify_signature_with verifyCall message signature = true) ∧
    (∀ e, verifyCall signature (strBytes message) = Except.error e →
      verify_signature_with verifyCall message signature = false) := by
  unfold verify_signature_with
  rcases hv : verifyCall signature (strBytes message) with e | u <;>
    simp [hv]

theorem verify_signature_total_uniform_false_witness :
    verify_signature_with
      (fun _ _ => (Except.error "InvalidSignature" : Except String Unit))
      "China-MY25" ⟨0, [], 0⟩ = false :=
  (verify_signature_total_uniform_false
    (fun _ _ => (Except.error "InvalidSignature" : Except String Unit))
    "China-MY25" ⟨0, [], 0⟩).2.2 "InvalidSignature" rfl

/-- C5: round-trip — a signature produced by `sign_message` over a message
verifies against the matching public key and the same message, whatever salt
the PSS padding drew; distinct salts give distinct (non-byte-identical)
signatures, yet both verify. -/
theorem sign_verify_roundtrip (session salt salt' : Nat) (M : String)
    (hs : salt ≠ salt') :
    verify_signature (generate_rsa_keypair session).2 M
        (sign_message (generate_rsa_keypair session).1 M salt) = true ∧
    verify_signature (generate_rsa_keypair session).2 M
        (sign_message (generate_rsa_keypair session).1 M salt') = true ∧
    sign_message (generate_rsa_keypair session).1 M salt ≠
      sign_message (generate_rsa_keypair session).1 M salt' := by
  refine ⟨?_, ?_, ?_⟩
  · simp [verify_signature, verify_signature_with, publicKeyVerify, sign_message,
      generate_rsa_keypair]
  · simp [verify_signature, verify_signature_with, publicKeyVerify, sign_message,
      generate_rsa_keypair]
  · intro hcontra
    exact hs (congrArg RSASignature.salt hcontra)

theorem sign_verify_roundtrip_witness :
    verify_signature (generate_rsa_keypair 0).2 "China-MY25"
        (sign_message (generate_rsa_keypair 0).1 "China-MY25" 0) = true ∧
    verify_signature (generate_rsa_keypair 0).2 "China-MY25"
        (sign_message (generate_rsa_keypair 0).1 "China-MY25" 1) = true ∧
    sign_message (generate_rsa_keypair 0).1 "China-MY25" 0 ≠
      sign_message (generate_rsa_keypair 0).1 "China-MY25" 1 :=
  sign_verify_roundtrip 0 0 1 "China-MY25" (by decide)

/-- C6: tamper sensitivity — verifying a signature over `M` against any
message distinct from `M` (in particular `M` with a non-empty suffix
appended) returns false. -/
theorem verify_tampered_message_false (session salt : Nat) (M M2 : String)
    (hne : M2 ≠ M) :
    verify_signature (generate_rsa_keypair session).2 M2
      (sign_message (generate_rsa_keypair session).1 M salt) = false := by
  unfold verify_signature verify_signature_with publicKeyVerify sign_message
    generate_rsa_keypair
  rw [if_neg]
  · rintro ⟨-, hb⟩
    exact hne (strBytes_inj M2 M hb.symm)

theorem verify_tampered_message_false_witness :
    verify_signature (generate_rsa_keypair 0).2 "China-MY25tampered"
      (sign_message (generate_rsa_keypair 0).1 "China-MY25" 0) = false :=
  verify_tampered_message_false 0 0 "China-MY25" "China-MY25tampered" (by decide)

/-- C8, as stated, is false of the code: `pow_mining` reads `time.time()`, a
wall clock with no monotonicity guarantee, so if the system clock steps back
between the two reads (here from 5 to 3) the returned elapsed time is the
negative value -2. -/
theorem pow_mining_elapsed_negative_on_clock_step_back :
    (pow_mining (fun k => if k = 0 then 5 else 3) "a" 0 1).map (fun r => r.2.2.2) =
      some ((3 : Rat) - 5) ∧ ((3 : Rat) - 5 < 0) := by
  constructor
  · rfl
  · norm_num

/-- C8 amended: the elapsed time is exactly the difference of the two clock
reads, and it is non-negative whenever the clock did not step backwards
between them (as a monotonic clock would guarantee; `time.time()` does not). -/
theorem pow_mining_elapsed_nonneg_of_monotone_clock
    (clock : Nat → Rat) (hmono : clock 0 ≤ clock 1) (seed : String) (D : Int)
    (fuel nonce : Nat) (content digest : String) (t : Rat)
    (h : pow_mining clock seed D fuel = some (nonce, content, digest, t)) :
    t = clock 1 - clock 0 ∧ 0 ≤ t := by
  unfold pow_mining at h
  obtain ⟨-, -, -, -, h5, -⟩ :=
    pow_mining_loop_spec clock seed (zeroTarget D) (clock 0) fuel 0 nonce content digest t h
  refine ⟨h5, ?_⟩
  rw [h5]
  exact sub_nonneg.mpr hmono

theorem pow_mining_elapsed_nonneg_of_monotone_clock_witness :
    (fun _ : Nat => (0 : Rat)) 1 - (fun _ : Nat => (0 : Rat)) 0 =
      (fun _ : Nat => (0 : Rat)) 1 - (fun _ : Nat => (0 : Rat)) 0 ∧
    0 ≤ (fun _ : Nat => (0 : Rat)) 1 - (fun _ : Nat => (0 : Rat)) 0 :=
  pow_mining_elapsed_nonneg_of_monotone_clock (fun _ => 0) (le_refl 0) "a" 0 1 0 "a0"
    (hexdigest "a0") ((fun _ : Nat => (0 : Rat)) 1 - (fun _ : Nat => (0 : Rat)) 0) (by rfl)

end POW
